import Mathlib

/-!
Verification of the Redwood `refStore` (src/refstore.go) against its
specification.  The store is modelled as a pure state machine: the blob
directory and the badger metadata database become association lists, and the
fallible Go functions become `Except`-valued Lean functions.  The two hash
functions used by `StoreObject` (`crypto/sha1` and
`golang.org/x/crypto/sha3.NewLegacyKeccak256`) are implemented executably over
byte lists (`Nat` values below 256) so that concrete digests can be computed
by kernel reduction.
-/

set_option maxRecDepth 4000

/-! ## Bit-level helpers (machine words as `Nat` reduced mod `2^w`) -/

/-- Left rotation of a 32-bit word, modelling Go `bits.RotateLeft32`. -/
def rotl32 (x n : Nat) : Nat := (x * 2 ^ n + x / 2 ^ (32 - n)) % 2 ^ 32

/-- Left rotation of a 64-bit word, modelling Go `bits.RotateLeft64`. -/
def rotl64 (x n : Nat) : Nat := (x * 2 ^ n + x / 2 ^ (64 - n)) % 2 ^ 64

/-- Bitwise complement of a 32-bit word. -/
def not32 (x : Nat) : Nat := (2 ^ 32 - 1) ^^^ x

/-- Bitwise complement of a 64-bit word. -/
def not64 (x : Nat) : Nat := (2 ^ 64 - 1) ^^^ x

/-! ## SHA-1 (`crypto/sha1`) -/

/-- Big-endian load of a list of bytes into a word. -/
def loadBE (bs : List Nat) : Nat := bs.foldl (fun acc b => acc * 256 + b) 0

/-- Big-endian bytes of a 32-bit word. -/
def storeBE32 (w : Nat) : List Nat :=
  [w / 2 ^ 24 % 256, w / 2 ^ 16 % 256, w / 2 ^ 8 % 256, w % 256]

/-- Big-endian bytes of a 64-bit word. -/
def storeBE64 (w : Nat) : List Nat :=
  [w / 2 ^ 56 % 256, w / 2 ^ 48 % 256, w / 2 ^ 40 % 256, w / 2 ^ 32 % 256,
   w / 2 ^ 24 % 256, w / 2 ^ 16 % 256, w / 2 ^ 8 % 256, w % 256]

/-- SHA-1 message padding: `0x80`, zeros to 56 mod 64, 64-bit big-endian bit length. -/
def sha1Pad (msg : List Nat) : List Nat :=
  msg ++ [0x80] ++ List.replicate ((119 - msg.length % 64) % 64) 0
      ++ storeBE64 (8 * msg.length)

/-- The 80-word SHA-1 message schedule for one 64-byte block. -/
def sha1Schedule (block : List Nat) : List Nat :=
  (List.range 80).foldl
    (fun ws i =>
      if i < 16 then ws ++ [loadBE ((block.drop (4 * i)).take 4)]
      else ws ++ [rotl32 (ws.getD (i - 3) 0 ^^^ ws.getD (i - 8) 0 ^^^
                          ws.getD (i - 14) 0 ^^^ ws.getD (i - 16) 0) 1]) []

/-- The SHA-1 round function and constant for round `i`. -/
def sha1F (i b c d : Nat) : Nat × Nat :=
  if i < 20 then ((b &&& c) ||| (not32 b &&& d), 0x5a827999)
  else if i < 40 then (b ^^^ c ^^^ d, 0x6ed9eba1)
  else if i < 60 then ((b &&& c) ||| (b &&& d) ||| (c &&& d), 0x8f1bbcdc)
  else (b ^^^ c ^^^ d, 0xca62c1d6)

/-- SHA-1 compression of one 64-byte block into the 5-word chaining state. -/
def sha1Block (h : List Nat) (block : List Nat) : List Nat :=
  let ws := sha1Schedule block
  let st := (List.range 80).foldl
    (fun st i =>
      match st with
      | (a, b, c, d, e) =>
        let fk := sha1F i b c d
        ((rotl32 a 5 + fk.1 + e + fk.2 + ws.getD i 0) % 2 ^ 32, a, rotl32 b 30, c, d))
    (h.getD 0 0, h.getD 1 0, h.getD 2 0, h.getD 3 0, h.getD 4 0)
  match st with
  | (a, b, c, d, e) =>
    [(h.getD 0 0 + a) % 2 ^ 32, (h.getD 1 0 + b) % 2 ^ 32, (h.getD 2 0 + c) % 2 ^ 32,
     (h.getD 3 0 + d) % 2 ^ 32, (h.getD 4 0 + e) % 2 ^ 32]

/-- SHA-1 of a byte sequence, as the 20-byte digest (`sha1.Sum`). -/
def sha1Bytes (msg : List Nat) : List Nat :=
  let padded := sha1Pad msg
  let final := (List.range (padded.length / 64)).foldl
    (fun h k => sha1Block h ((padded.drop (64 * k)).take 64))
    [0x67452301, 0xefcdab89, 0x98badcfe, 0x10325476, 0xc3d2e1f0]
  final.flatMap storeBE32

/-! ## Keccak-256 (`sha3.NewLegacyKeccak256`: original Keccak padding `0x01`) -/

/-- Little-endian load of a list of bytes into a lane. -/
def loadLE (bs : List Nat) : Nat := bs.foldr (fun b acc => acc * 256 + b) 0

/-- The 24 Keccak-f[1600] round constants. -/
def keccakRC : List Nat :=
  [0x0000000000000001, 0x0000000000008082, 0x800000000000808a, 0x8000000080008000,
   0x000000000000808b, 0x0000000080000001, 0x8000000080008081, 0x8000000000008009,
   0x000000000000008a, 0x0000000000000088, 0x0000000080008009, 0x000000008000000a,
   0x000000008000808b, 0x800000000000008b, 0x8000000000008089, 0x8000000000008003,
   0x8000000000008002, 0x8000000000000080, 0x000000000000800a, 0x800000008000000a,
   0x8000000080008081, 0x8000000000008080, 0x0000000080000001, 0x8000000080008008]

/-- Pairs `(lane position, rotation offset)` of the Keccak ρ step, generated by
walking the π orbit from lane `(1, 0)`: the lane visited at step `t` is rotated
by the triangular number `(t+1)(t+2)/2 mod 64`. -/
def keccakRhoSteps : List (Nat × Nat) :=
  ((List.range 24).foldl
    (fun st t =>
      ((st.1.2, (2 * st.1.1 + 3 * st.1.2) % 5),
        (st.1.1 + 5 * st.1.2, (t + 1) * (t + 2) / 2 % 64) :: st.2))
    ((1, 0), [])).2

/-- Keccak rotation offsets, indexed by lane position `x + 5*y` (lane 0 is not
rotated). -/
def keccakRho : List Nat :=
  (List.range 25).map fun i => (keccakRhoSteps.lookup i).getD 0

/-- The θ step of Keccak-f. -/
def keccakTheta (A : List Nat) : List Nat :=
  let C := (List.range 5).map fun x =>
    A.getD x 0 ^^^ A.getD (x + 5) 0 ^^^ A.getD (x + 10) 0 ^^^
    A.getD (x + 15) 0 ^^^ A.getD (x + 20) 0
  let D := (List.range 5).map fun x =>
    C.getD ((x + 4) % 5) 0 ^^^ rotl64 (C.getD ((x + 1) % 5) 0) 1
  (List.range 25).map fun i => A.getD i 0 ^^^ D.getD (i % 5) 0

/-- The combined ρ and π steps of Keccak-f. -/
def keccakRhoPi (A : List Nat) : List Nat :=
  (List.range 25).map fun i =>
    let s := (i % 5 + 3 * (i / 5)) % 5 + 5 * (i % 5)
    rotl64 (A.getD s 0) (keccakRho.getD s 0)

/-- The χ step of Keccak-f. -/
def keccakChi (A : List Nat) : List Nat :=
  (List.range 25).map fun i =>
    let x := i % 5
    let y5 := i - x
    A.getD i 0 ^^^ (not64 (A.getD (y5 + (x + 1) % 5) 0) &&& A.getD (y5 + (x + 2) % 5) 0)

/-- The ι step of Keccak-f. -/
def keccakIota (rc : Nat) (A : List Nat) : List Nat :=
  (A.getD 0 0 ^^^ rc) :: A.drop 1

/-- The full Keccak-f[1600] permutation (24 rounds). -/
def keccakF (A : List Nat) : List Nat :=
  keccakRC.foldl (fun st rc => keccakIota rc (keccakChi (keccakRhoPi (keccakTheta st)))) A

/-- Multi-rate padding with the legacy Keccak domain byte `0x01` (rate 136). -/
def keccakPad (msg : List Nat) : List Nat :=
  let q := 136 - msg.length % 136
  if q = 1 then msg ++ [0x81]
  else msg ++ [0x01] ++ List.replicate (q - 2) 0 ++ [0x80]

/-- XOR one 136-byte block into the first 17 lanes of the state. -/
def keccakAbsorbBlock (A : List Nat) (block : List Nat) : List Nat :=
  (List.range 25).map fun i =>
    if i < 17 then A.getD i 0 ^^^ loadLE ((block.drop (8 * i)).take 8) else A.getD i 0

/-- Keccak-256 of a byte sequence, as the 32-byte digest. -/
def keccak256 (msg : List Nat) : List Nat :=
  let padded := keccakPad msg
  let final := (List.range (padded.length / 136)).foldl
    (fun A k => keccakF (keccakAbsorbBlock A ((padded.drop (136 * k)).take 136)))
    (List.replicate 25 0)
  (List.range 32).map fun i => final.getD (i / 8) 0 / 256 ^ (i % 8) % 256

/-! ## Hex encoding (filenames and text forms; `encoding/hex`, lowercase) -/

/-- The lowercase hex digit character for a value below 16. -/
def hexDigit (n : Nat) : Char :=
  if n < 10 then Char.ofNat (48 + n) else Char.ofNat (87 + n)

/-- Lowercase hex characters of a byte sequence (`types.Hash.Hex`). -/
def hexChars (bs : List Nat) : List Char :=
  bs.flatMap fun b => [hexDigit (b / 16), hexDigit (b % 16)]

/-- Lowercase hex string of a byte sequence. -/
def hexStr (bs : List Nat) : String := String.mk (hexChars bs)

/-- The value of a lowercase hex digit character; `none` for anything else. -/
def hexDigitVal (c : Char) : Option Nat :=
  if 48 ≤ c.toNat ∧ c.toNat ≤ 57 then some (c.toNat - 48)
  else if 97 ≤ c.toNat ∧ c.toNat ≤ 102 then some (c.toNat - 87)
  else none

/-- Decode an even-length lowercase hex character sequence into bytes. -/
def decodeHex : List Char → Option (List Nat)
  | [] => some []
  | c1 :: c2 :: rest =>
    match hexDigitVal c1, hexDigitVal c2, decodeHex rest with
    | some hi, some lo, some bs => some ((16 * hi + lo) :: bs)
    | _, _, _ => none
  | [_] => none

/-! ## Data model: hashes, RefIDs, the store state -/

/-- The Go `copy(dst[:], src)` into a zeroed 32-byte `types.Hash` cell. -/
def copyHash (v : List Nat) : List Nat := (v ++ List.replicate 32 0).take 32

/-- The raw bytes of the index key suffix `":sha3"`. -/
def sha3KeySuffix : List Nat := [58, 115, 104, 97, 51]

/-- The raw bytes of the index key suffix `":sha1"`. -/
def sha1KeySuffix : List Nat := [58, 115, 104, 97, 49]

/-- The hash-algorithm tag of `types.RefID`; values other than SHA1/SHA3 hit the
`default` branches of the Go switches. -/
inductive HashAlg where
  | sha1
  | sha3
  | unknownAlg (n : Nat)
deriving DecidableEq

/-- A `types.RefID`: an algorithm tag plus a 32-byte hash cell. -/
structure RefID where
  hashAlg : HashAlg
  hash : List Nat
deriving DecidableEq

/-- Modelled from the spec: `types.RefID.MarshalText` (the `types` package is not
among the provided sources).  The canonical text form is `"<alg>:<hex>"` with a
lowercase hex digest of fixed length per algorithm: 40 characters for SHA1 (the
first 20 bytes of the 32-byte cell), 64 for SHA3.  Marshalling an unknown
algorithm tag fails. -/
def RefID.marshalText : RefID → Option (List Char)
  | ⟨.sha1, h⟩ => some (['s', 'h', 'a', '1', ':'] ++ hexChars (h.take 20))
  | ⟨.sha3, h⟩ => some (['s', 'h', 'a', '3', ':'] ++ hexChars h)
  | ⟨.unknownAlg _, _⟩ => none

/-- Modelled from the spec: `types.RefID.UnmarshalText` (the `types` package is
not among the provided sources).  Accepts exactly the canonical text forms:
`"sha1:"` followed by 40 lowercase hex characters (loaded into the front of the
32-byte cell, zero padded) or `"sha3:"` followed by 64. -/
def RefID.unmarshalText (cs : List Char) : Option RefID :=
  if cs.take 5 = ['s', 'h', 'a', '1', ':'] then
    if (cs.drop 5).length = 40 then
      match decodeHex (cs.drop 5) with
      | some bs => some ⟨.sha1, bs ++ List.replicate 12 0⟩
      | none => none
    else none
  else if cs.take 5 = ['s', 'h', 'a', '3', ':'] then
    if (cs.drop 5).length = 64 then
      match decodeHex (cs.drop 5) with
      | some bs => some ⟨.sha3, bs⟩
      | none => none
    else none
  else none

/-- Modelled from the spec: `types.HashFromHex` (used by `AllHashes` on blob
filenames); a valid name is the 64-character lowercase hex form of a 32-byte
digest, anything else is rejected. -/
def hashFromHex (cs : List Char) : Option (List Nat) :=
  if cs.length = 64 then decodeHex cs else none

/-- The decoded shape of the value stored under the `"missing-refs"` key: either
bytes that `json.Unmarshal` rejects, or a JSON object represented by its key
set (values are ignored by the Go code; `map[string]interface{}` key order is
not observable through any verified operation and is not modelled). -/
inductive MissingVal where
  | malformed
  | object (keys : List (List Char))
deriving DecidableEq

/-- The persistent state of a `refStore`: the `blobs/` directory (keyed by file
base name), temporary files under `<root>/`, a counter giving fresh temp-file
names, the badger hash-mapping entries (raw byte keys), and the
`"missing-refs"` value.  Listener registries carry no persistent data relevant
to the verified claims and are omitted. -/
structure RefStoreState where
  rootPath : String
  blobs : List (List Char × List Nat)
  tempFiles : List (String × List Nat)
  nextTemp : Nat
  mappings : List (List Nat × List Nat)
  missingVal : Option MissingVal
deriving DecidableEq

/-- Error classes a modelled operation can produce: `notFound` covers
`types.Err404` and the `os.IsNotExist` stat failures; the remaining
constructors model the unknown-hash-algorithm errors, injected I/O failures,
failed index transactions, and `json.Unmarshal` failures. -/
inductive StoreErr where
  | notFound
  | unknownHashAlg (n : Nat)
  | ioError
  | indexError
  | malformedData
deriving DecidableEq

/-! ## Association-list primitives (filesystem directory and badger KV) -/

/-- Lookup in an association list (first matching key). -/
def alookup {α β : Type} [DecidableEq α] : List (α × β) → α → Option β
  | [], _ => none
  | (k, v) :: rest, k' => if k' = k then some v else alookup rest k'

/-- Insert or overwrite a key in an association list. -/
def aset {α β : Type} [DecidableEq α] : List (α × β) → α → β → List (α × β)
  | [], k, v => [(k, v)]
  | (k0, v0) :: rest, k, v =>
    if k = k0 then (k, v) :: rest else (k0, v0) :: aset rest k v

/-- Remove a key from an association list. -/
def aremove {α β : Type} [DecidableEq α] : List (α × β) → α → List (α × β)
  | [], _ => []
  | (k0, v0) :: rest, k => if k = k0 then rest else (k0, v0) :: aremove rest k

/-! ## The store operations (src/refstore.go) -/

/-- `filepathForSHA3Blob` (refstore.go:505-507): the canonical blob path. -/
def filepathForSHA3Blob (st : RefStoreState) (h : List Nat) : String :=
  st.rootPath ++ "/blobs/" ++ hexStr h

/-- `sha3ForSHA1` (refstore.go:467-484): look up `<sha1-20>:sha3` in the index;
a missing key is `types.Err404`, a found value is copied into a zeroed hash
cell. -/
def sha3ForSHA1 (st : RefStoreState) (h : List Nat) : Except StoreErr (List Nat) :=
  match alookup st.mappings (h.take 20 ++ sha3KeySuffix) with
  | none => .error .notFound
  | some v => .ok (copyHash v)

/-- `sha1ForSHA3` (refstore.go:486-503): the reverse index lookup. -/
def sha1ForSHA3 (st : RefStoreState) (h : List Nat) : Except StoreErr (List Nat) :=
  match alookup st.mappings (h ++ sha1KeySuffix) with
  | none => .error .notFound
  | some v => .ok (copyHash v)

/-- `HaveObject` (refstore.go:85-114): resolve to the canonical SHA3 (a 404 on
the SHA1 lookup yields `false`, not an error), then stat the canonical file. -/
def HaveObject (st : RefStoreState) (refID : RefID) : Except StoreErr Bool :=
  match refID.hashAlg with
  | .sha1 =>
    match sha3ForSHA1 st refID.hash with
    | .error .notFound => .ok false
    | .error e => .error e
    | .ok s3 => .ok (alookup st.blobs (hexChars s3)).isSome
  | .sha3 => .ok (alookup st.blobs (hexChars refID.hash)).isSome
  | .unknownAlg n => .error (.unknownHashAlg n)

/-- `objectBySHA3` (refstore.go:162-175): stat then open the canonical file,
returning its contents (the stream fully read) and the stat size. -/
def objectBySHA3 (st : RefStoreState) (h : List Nat) : Except StoreErr (List Nat × Nat) :=
  match alookup st.blobs (hexChars h) with
  | none => .error .notFound
  | some bs => .ok (bs, bs.length)

/-- `objectBySHA1` (refstore.go:154-160). -/
def objectBySHA1 (st : RefStoreState) (h : List Nat) : Except StoreErr (List Nat × Nat) :=
  match sha3ForSHA1 st h with
  | .error e => .error e
  | .ok s3 => objectBySHA3 st s3

/-- `Object` (refstore.go:116-133); `ensureRootPath` only creates directories
and does not change any modelled component. -/
def Object (st : RefStoreState) (refID : RefID) : Except StoreErr (List Nat × Nat) :=
  match refID.hashAlg with
  | .sha1 => objectBySHA1 st refID.hash
  | .sha3 => objectBySHA3 st refID.hash
  | .unknownAlg n => .error (.unknownHashAlg n)

/-- `ObjectFilepath` (refstore.go:135-152): the canonical path, without looking
at the blob directory on the SHA3 branch. -/
def ObjectFilepath (st : RefStoreState) (refID : RefID) : Except StoreErr String :=
  match refID.hashAlg with
  | .sha1 =>
    match sha3ForSHA1 st refID.hash with
    | .error e => .error e
    | .ok s3 => .ok (filepathForSHA3Blob st s3)
  | .sha3 => .ok (filepathForSHA3Blob st refID.hash)
  | .unknownAlg n => .error (.unknownHashAlg n)

/-- Decoding the stored `"missing-refs"` value as the Go transactions do
(refstore.go:281-293, 330-345, 383-398): a missing key yields the empty map,
undecodable bytes yield the `json.Unmarshal` error, and a JSON object yields
its key set (`map` keys are unique). -/
def decodeMissing : Option MissingVal → Except StoreErr (List (List Char))
  | none => .ok []
  | some .malformed => .error .malformedData
  | some (.object ks) => .ok ks.dedup

/-- `RefsNeeded` (refstore.go:277-310): decode the missing set, then unmarshal
each key, logging and skipping the keys that fail. -/
def RefsNeeded (st : RefStoreState) : Except StoreErr (List RefID) :=
  match decodeMissing st.missingVal with
  | .error e => .error e
  | .ok ks => .ok (ks.filterMap RefID.unmarshalText)

/-- `unmarkRefsAsNeeded` (refstore.go:377-419): in one transaction, load the
missing set (a failed decode aborts the transaction, which is only logged),
delete the marshalled keys (marshal failures are logged and skipped), and write
the result back. -/
def unmarkRefsAsNeeded (st : RefStoreState) (refs : List RefID) : RefStoreState :=
  match decodeMissing st.missingVal with
  | .error _ => st
  | .ok ks =>
    let dels := refs.filterMap RefID.marshalText
    { st with missingVal := some (.object (ks.filter fun k => decide (k ∉ dels))) }

/-- `MarkRefsAsNeeded` (refstore.go:312-375): keep only the refs for which
`HaveObject` succeeds with `false`, then in one transaction load the missing
set (a failed decode aborts the transaction, which is only logged), union in
the marshalled keys, and write back.  The trailing `RefsNeeded` call feeds the
listeners only. -/
def MarkRefsAsNeeded (st : RefStoreState) (refs : List RefID) : RefStoreState :=
  let actuallyNeeded := refs.filter fun r =>
    match HaveObject st r with
    | .ok b => !b
    | .error _ => false
  match decodeMissing st.missingVal with
  | .error _ => st
  | .ok ks =>
    let newKeys := actuallyNeeded.filterMap RefID.marshalText
    { st with missingVal := some (.object (ks ++ newKeys)) }

/-- The step of `StoreObject` at which an injected environment failure (I/O or
index error) strikes. -/
inductive StoreStep where
  | createTemp
  | copyStream
  | closeTemp
  | renameTemp
  | indexWrite
deriving DecidableEq

/-- `StoreObject` (refstore.go:177-243), with an optional injected failure.
Steps: create a uniquely named temp file under `<root>/`; tee the stream into
it through both hashers; close it; rename it to the canonical blob path
(replacing any existing file with the identical content); write both index
mappings in one transaction; unmark both refIDs.  The deferred `tmpFile.Close`
closes but never removes the temp file, so on the copy/close/rename failure
paths the temp file stays in place; a failed index transaction is rolled back
by badger but the already-renamed blob stays. -/
def StoreObject (failAt : Option StoreStep) (st : RefStoreState) (content : List Nat) :
    RefStoreState × Except StoreErr (List Nat × List Nat) :=
  if failAt = some .createTemp then (st, .error .ioError) else
  let tmpName := "temp-" ++ toString st.nextTemp
  let st1 := { st with tempFiles := aset st.tempFiles tmpName [],
                       nextTemp := st.nextTemp + 1 }
  if failAt = some .copyStream then (st1, .error .ioError) else
  let sha1Hash := copyHash (sha1Bytes content)
  let sha3Hash := copyHash (keccak256 content)
  let st2 := { st1 with tempFiles := aset st1.tempFiles tmpName content }
  if failAt = some .closeTemp then (st2, .error .ioError) else
  if failAt = some .renameTemp then (st2, .error .ioError) else
  let newBlobs := aset st2.blobs (hexChars sha3Hash) content
  let st3 := { st2 with tempFiles := aremove st2.tempFiles tmpName, blobs := newBlobs }
  if failAt = some .indexWrite then (st3, .error .indexError) else
  let newMappings :=
    aset (aset st3.mappings (sha1Hash.take 20 ++ sha3KeySuffix) sha3Hash)
      (sha3Hash ++ sha1KeySuffix) (sha1Hash.take 20)
  let st4 := { st3 with mappings := newMappings }
  (unmarkRefsAsNeeded st4 [⟨.sha1, sha1Hash⟩, ⟨.sha3, sha3Hash⟩],
   .ok (sha1Hash, sha3Hash))

/-- `AllHashes` (refstore.go:245-275): enumerate the blob directory, parse each
file name as a hash (skipping foreign names), emit the SHA3 refID and, when
the reverse index has it, the SHA1 refID.  The `filepath.Glob` sort order is
not observable through any verified property and is not modelled. -/
def AllHashes (st : RefStoreState) : List RefID :=
  (st.blobs.map Prod.fst).flatMap fun nm =>
    match hashFromHex nm with
    | none => []
    | some h3 =>
      ⟨.sha3, h3⟩ ::
        (match sha1ForSHA3 st h3 with
         | .ok h1 => [⟨.sha1, h1⟩]
         | .error _ => [])

/-! ## Observation helpers and concrete fixtures -/

/-- The key set of the persisted missing-refs object (empty when the key is
absent or the value undecodable); used to state set-level properties. -/
def missingKeys (st : RefStoreState) : List (List Char) :=
  match st.missingVal with
  | some (.object ks) => ks
  | _ => []

/-- A freshly created store: `NewRefStore` + `Start` over an empty root
directory and an empty badger database. -/
def newRefStore (rootPath : String) : RefStoreState :=
  { rootPath := rootPath, blobs := [], tempFiles := [], nextTemp := 0,
    mappings := [], missingVal := none }

/-- The five UTF-8 bytes of `"hello"`. -/
def helloBytes : List Nat := [104, 101, 108, 108, 111]

/-- The expected SHA1 digest of `"hello"` inside its 32-byte cell. -/
def helloSha1 : List Nat :=
  [0xaa, 0xf4, 0xc6, 0x1d, 0xdc, 0xc5, 0xe8, 0xa2, 0xda, 0xbe, 0xde, 0x0f,
   0x3b, 0x48, 0x2c, 0xd9, 0xae, 0xa9, 0x43, 0x4d] ++ List.replicate 12 0

/-- The expected Keccak-256 digest of `"hello"`. -/
def helloSha3 : List Nat :=
  [0x1c, 0x8a, 0xff, 0x95, 0x06, 0x85, 0xc2, 0xed, 0x4b, 0xc3, 0x17, 0x4f,
   0x34, 0x72, 0x28, 0x7b, 0x56, 0xd9, 0x51, 0x7b, 0x9c, 0x94, 0x81, 0x27,
   0x31, 0x9a, 0x09, 0xa7, 0xa3, 0x6d, 0xea, 0xc8]

/-- A store whose persisted missing set is undecodable. -/
def malformedStore : RefStoreState :=
  { newRefStore "root" with missingVal := some .malformed }

/-- The canonical text form of the all-zero SHA3 refID. -/
def refZ3text : List Char := ['s', 'h', 'a', '3', ':'] ++ hexChars (List.replicate 32 0)

/-- The all-zero SHA3 refID. -/
def refZ3 : RefID := ⟨.sha3, List.replicate 32 0⟩

/-- A store with one undecodable and one well-formed missing-set key. -/
def mixedKeysStore : RefStoreState :=
  { newRefStore "root" with missingVal := some (.object [['x'], refZ3text]) }

/-- A store with a single SHA1→SHA3 index entry and no blobs. -/
def mappedStore : RefStoreState :=
  { newRefStore "root" with
    mappings := [(List.replicate 20 0 ++ sha3KeySuffix, List.replicate 32 1)] }

/-- A store holding the empty blob under the all-zero canonical name. -/
def zeroBlobStore : RefStoreState :=
  { newRefStore "root" with blobs := [(hexChars (List.replicate 32 0), [])] }

/-- A store whose missing set already contains the hello SHA3 key. -/
def helloMissingStore : RefStoreState :=
  { newRefStore "root" with
    missingVal := some (.object [['s', 'h', 'a', '3', ':'] ++ hexChars helloSha3]) }

/-! ## Association-list lemmas -/

theorem alookup_aset_self {α β : Type} [DecidableEq α] (l : List (α × β)) (k : α) (v : β) :
    alookup (aset l k v) k = some v := by
  induction l with
  | nil => simp [aset, alookup]
  | cons p rest ih =>
    obtain ⟨k0, v0⟩ := p
    by_cases h : k = k0
    · simp [aset, h, alookup]
    · simp [aset, h, alookup, ih]

theorem alookup_aset_ne {α β : Type} [DecidableEq α] (l : List (α × β)) (k k' : α) (v : β)
    (h : k' ≠ k) : alookup (aset l k v) k' = alookup l k' := by
  induction l with
  | nil => simp [aset, alookup, h]
  | cons p rest ih =>
    obtain ⟨k0, v0⟩ := p
    by_cases hk : k = k0
    · subst hk
      simp [aset, alookup, h]
    · by_cases hk' : k' = k0 <;> simp [aset, alookup, hk, hk', ih]

theorem aset_eq_of_alookup {α β : Type} [DecidableEq α] (l : List (α × β)) (k : α) (v : β)
    (h : alookup l k = some v) : aset l k v = l := by
  induction l with
  | nil => simp [alookup] at h
  | cons p rest ih =>
    obtain ⟨k0, v0⟩ := p
    by_cases hk : k = k0
    · subst hk
      simp [alookup] at h
      simp [aset, h]
    · simp [alookup, hk] at h
      simp [aset, hk, ih h]

/-! ## Hash-cell lemmas -/

theorem copyHash_length (v : List Nat) : (copyHash v).length = 32 := by
  simp [copyHash]

theorem copyHash_of_length (v : List Nat) (h : v.length = 32) : copyHash v = v := by
  simpa [copyHash] using List.take_left' h

/-! ## Hex round-trip lemmas -/

theorem hexChars_nil : hexChars [] = [] := rfl

theorem hexChars_cons (b : Nat) (bs : List Nat) :
    hexChars (b :: bs) = hexDigit (b / 16) :: hexDigit (b % 16) :: hexChars bs := by
  simp [hexChars]

theorem hexChars_length (bs : List Nat) : (hexChars bs).length = 2 * bs.length := by
  induction bs with
  | nil => rfl
  | cons b rest ih => rw [hexChars_cons]; simp [ih]; omega

theorem hexChars_append (bs cs : List Nat) :
    hexChars (bs ++ cs) = hexChars bs ++ hexChars cs := by
  simp [hexChars]

theorem hexDigitVal_hexDigit : ∀ n < 16, hexDigitVal (hexDigit n) = some n := by decide

theorem decodeHex_hexChars (bs : List Nat) (h : ∀ b ∈ bs, b < 256) :
    decodeHex (hexChars bs) = some bs := by
  induction bs with
  | nil => rfl
  | cons b rest ih =>
    have hb : b < 256 := h b (List.mem_cons_self b rest)
    have hhi : b / 16 < 16 := by omega
    have hlo : b % 16 < 16 := by omega
    rw [hexChars_cons, decodeHex, hexDigitVal_hexDigit _ hhi, hexDigitVal_hexDigit _ hlo,
      ih fun x hx => h x (List.mem_cons_of_mem b hx)]
    show some ((16 * (b / 16) + b % 16) :: rest) = some (b :: rest)
    rw [Nat.div_add_mod]

theorem hexDigit_hexDigitVal (c : Char) (d : Nat) (h : hexDigitVal c = some d) :
    d < 16 ∧ hexDigit d = c := by
  unfold hexDigitVal at h
  split_ifs at h with h1 h2
  · obtain ⟨ha, hb⟩ := h1
    injection h with h
    subst h
    refine ⟨by omega, ?_⟩
    unfold hexDigit
    rw [if_pos (by omega), show 48 + (c.toNat - 48) = c.toNat by omega, Char.ofNat_toNat]
  · obtain ⟨ha, hb⟩ := h2
    injection h with h
    subst h
    refine ⟨by omega, ?_⟩
    unfold hexDigit
    rw [if_neg (by omega), show 87 + (c.toNat - 87) = c.toNat by omega, Char.ofNat_toNat]

theorem decodeHex_inv :
    ∀ (cs : List Char) (bs : List Nat), decodeHex cs = some bs →
      hexChars bs = cs ∧ 2 * bs.length = cs.length
  | [], bs, h => by
    simp [decodeHex] at h
    subst h
    exact ⟨rfl, rfl⟩
  | c1 :: c2 :: rest, bs, h => by
    rw [decodeHex] at h
    cases h1 : hexDigitVal c1 with
    | none => rw [h1] at h; simp at h
    | some hi =>
      cases h2 : hexDigitVal c2 with
      | none => rw [h1, h2] at h; simp at h
      | some lo =>
        cases h3 : decodeHex rest with
        | none => rw [h1, h2, h3] at h; simp at h
        | some tl =>
          rw [h1, h2, h3] at h
          simp at h
          subst h
          obtain ⟨ihchars, ihlen⟩ := decodeHex_inv rest tl h3
          obtain ⟨hi16, hic⟩ := hexDigit_hexDigitVal c1 hi h1
          obtain ⟨lo16, loc⟩ := hexDigit_hexDigitVal c2 lo h2
          constructor
          · rw [hexChars_cons]
            have e1 : (16 * hi + lo) / 16 = hi := by omega
            have e2 : (16 * hi + lo) % 16 = lo := by omega
            rw [e1, e2, hic, loc, ihchars]
          · simp
            omega
  | [c], bs, h => by simp [decodeHex] at h

theorem decodeHex_lt :
    ∀ (cs : List Char) (bs : List Nat), decodeHex cs = some bs → ∀ b ∈ bs, b < 256
  | [], bs, h => by
    simp [decodeHex] at h
    subst h
    simp
  | c1 :: c2 :: rest, bs, h => by
    rw [decodeHex] at h
    cases h1 : hexDigitVal c1 with
    | none => rw [h1] at h; simp at h
    | some hi =>
      cases h2 : hexDigitVal c2 with
      | none => rw [h1, h2] at h; simp at h
      | some lo =>
        cases h3 : decodeHex rest with
        | none => rw [h1, h2, h3] at h; simp at h
        | some tl =>
          rw [h1, h2, h3] at h
          simp at h
          subst h
          intro b hb
          rcases List.mem_cons.mp hb with hb | hb
          · obtain ⟨hi16, -⟩ := hexDigit_hexDigitVal c1 hi h1
            obtain ⟨lo16, -⟩ := hexDigit_hexDigitVal c2 lo h2
            omega
          · exact decodeHex_lt rest tl h3 b hb
  | [_], bs, h => by simp [decodeHex] at h

/-! ## RefID text-form round trips -/

/-- Canonical refIDs: genuine 32-byte hash cells whose SHA1 variant carries a
20-byte digest padded with zeros, exactly what `StoreObject` returns and what
the canonical text form can represent. -/
def canonicalRefID : RefID → Prop
  | ⟨.sha1, h⟩ => h.length = 32 ∧ (∀ b ∈ h, b < 256) ∧ h.drop 20 = List.replicate 12 0
  | ⟨.sha3, h⟩ => h.length = 32 ∧ ∀ b ∈ h, b < 256
  | ⟨.unknownAlg _, _⟩ => False

theorem take_five_sha1 (X : List Char) :
    ((['s', 'h', 'a', '1', ':'] ++ X).take 5 = ['s', 'h', 'a', '1', ':']) ∧
    (['s', 'h', 'a', '1', ':'] ++ X).drop 5 = X := by
  constructor
  · exact List.take_left' rfl
  · simp

theorem take_five_sha3 (X : List Char) :
    ((['s', 'h', 'a', '3', ':'] ++ X).take 5 = ['s', 'h', 'a', '3', ':']) ∧
    (['s', 'h', 'a', '3', ':'] ++ X).drop 5 = X := by
  constructor
  · exact List.take_left' rfl
  · simp

theorem marshal_unmarshal (r : RefID) (hc : canonicalRefID r) (cs : List Char)
    (hm : r.marshalText = some cs) : RefID.unmarshalText cs = some r := by
  obtain ⟨alg, h⟩ := r
  cases alg with
  | sha1 =>
    obtain ⟨hlen, hlt, hdrop⟩ := hc
    simp only [RefID.marshalText, Option.some.injEq] at hm
    subst hm
    have htk := take_five_sha1 (hexChars (h.take 20))
    have hlen20 : (h.take 20).length = 20 := by simp [hlen]
    have hrest : (hexChars (h.take 20)).length = 40 := by
      rw [hexChars_length, hlen20]
    rw [RefID.unmarshalText, if_pos htk.1, htk.2, if_pos hrest,
      decodeHex_hexChars _ fun b hb => hlt b (List.mem_of_mem_take hb)]
    show some (⟨.sha1, h.take 20 ++ List.replicate 12 0⟩ : RefID) = some ⟨.sha1, h⟩
    rw [show h.take 20 ++ List.replicate 12 0 = h by rw [← hdrop, List.take_append_drop]]
  | sha3 =>
    obtain ⟨hlen, hlt⟩ := hc
    simp only [RefID.marshalText, Option.some.injEq] at hm
    subst hm
    have htk := take_five_sha3 (hexChars h)
    have hpre : (['s', 'h', 'a', '3', ':'] ++ hexChars h).take 5 ≠
        ['s', 'h', 'a', '1', ':'] := by
      rw [htk.1]
      decide
    have hrest : (hexChars h).length = 64 := by rw [hexChars_length, hlen]
    rw [RefID.unmarshalText, if_neg hpre, if_pos htk.1, htk.2, if_pos hrest,
      decodeHex_hexChars _ hlt]
  | unknownAlg n => exact absurd hc id

theorem unmarshal_marshal (cs : List Char) (r : RefID)
    (h : RefID.unmarshalText cs = some r) : r.marshalText = some cs := by
  rw [RefID.unmarshalText] at h
  by_cases h1 : cs.take 5 = ['s', 'h', 'a', '1', ':']
  · rw [if_pos h1] at h
    by_cases h2 : (cs.drop 5).length = 40
    · rw [if_pos h2] at h
      cases hd : decodeHex (cs.drop 5) with
      | none => rw [hd] at h; exact absurd h (by simp)
      | some bs =>
        rw [hd] at h
        have h' : some (⟨.sha1, bs ++ List.replicate 12 0⟩ : RefID) = some r := h
        obtain rfl : (⟨.sha1, bs ++ List.replicate 12 0⟩ : RefID) = r :=
          Option.some.inj h'
        obtain ⟨hchars, hlen⟩ := decodeHex_inv _ _ hd
        have hbs20 : bs.length = 20 := by omega
        simp only [RefID.marshalText, Option.some.injEq]
        rw [List.take_left' hbs20, hchars, ← h1, List.take_append_drop]
    · rw [if_neg h2] at h
      exact absurd h (by simp)
  · rw [if_neg h1] at h
    by_cases h1' : cs.take 5 = ['s', 'h', 'a', '3', ':']
    · rw [if_pos h1'] at h
      by_cases h3 : (cs.drop 5).length = 64
      · rw [if_pos h3] at h
        cases hd : decodeHex (cs.drop 5) with
        | none => rw [hd] at h; exact absurd h (by simp)
        | some bs =>
          rw [hd] at h
          have h' : some (⟨.sha3, bs⟩ : RefID) = some r := h
          obtain rfl : (⟨.sha3, bs⟩ : RefID) = r := Option.some.inj h'
          obtain ⟨hchars, hlen⟩ := decodeHex_inv _ _ hd
          simp only [RefID.marshalText, Option.some.injEq]
          rw [hchars, ← h1', List.take_append_drop]
      · rw [if_neg h3] at h
        exact absurd h (by simp)
    · rw [if_neg h1'] at h
      exact absurd h (by simp)

/-! ## Store-level lemmas -/

theorem aset_aset {α β : Type} [DecidableEq α] (l : List (α × β)) (k : α) (v w : β) :
    aset (aset l k v) k w = aset l k w := by
  induction l with
  | nil => simp [aset]
  | cons p rest ih =>
    obtain ⟨k0, v0⟩ := p
    by_cases h : k = k0 <;> simp [aset, h, ih]

theorem aremove_aset_of_none {α β : Type} [DecidableEq α] (l : List (α × β)) (k : α) (v : β)
    (h : alookup l k = none) : aremove (aset l k v) k = l := by
  induction l with
  | nil => simp [aset, aremove]
  | cons p rest ih =>
    obtain ⟨k0, v0⟩ := p
    by_cases hk : k = k0
    · subst hk
      simp [alookup] at h
    · simp [alookup, hk] at h
      simp [aset, aremove, hk, ih h]

theorem unmark_fields (st : RefStoreState) (refs : List RefID) :
    (unmarkRefsAsNeeded st refs).rootPath = st.rootPath ∧
    (unmarkRefsAsNeeded st refs).blobs = st.blobs ∧
    (unmarkRefsAsNeeded st refs).tempFiles = st.tempFiles ∧
    (unmarkRefsAsNeeded st refs).nextTemp = st.nextTemp ∧
    (unmarkRefsAsNeeded st refs).mappings = st.mappings := by
  unfold unmarkRefsAsNeeded
  cases decodeMissing st.missingVal <;> simp

theorem storeObject_none_eq (st : RefStoreState) (B : List Nat) :
    StoreObject .none st B =
      (unmarkRefsAsNeeded
        { st with
          tempFiles := aremove (aset (aset st.tempFiles ("temp-" ++ toString st.nextTemp) [])
              ("temp-" ++ toString st.nextTemp) B) ("temp-" ++ toString st.nextTemp),
          nextTemp := st.nextTemp + 1,
          blobs := aset st.blobs (hexChars (copyHash (keccak256 B))) B,
          mappings := aset (aset st.mappings ((copyHash (sha1Bytes B)).take 20 ++ sha3KeySuffix)
              (copyHash (keccak256 B))) (copyHash (keccak256 B) ++ sha1KeySuffix)
              ((copyHash (sha1Bytes B)).take 20) }
        [⟨.sha1, copyHash (sha1Bytes B)⟩, ⟨.sha3, copyHash (keccak256 B)⟩],
       .ok (copyHash (sha1Bytes B), copyHash (keccak256 B))) := rfl

theorem storeObject_none_snd (st : RefStoreState) (B : List Nat) :
    (StoreObject .none st B).2 = .ok (copyHash (sha1Bytes B), copyHash (keccak256 B)) := by
  rw [storeObject_none_eq]

theorem storeObject_none_blobs (st : RefStoreState) (B : List Nat) :
    ((StoreObject .none st B).1).blobs =
      aset st.blobs (hexChars (copyHash (keccak256 B))) B := by
  rw [storeObject_none_eq]
  exact (unmark_fields _ _).2.1

theorem storeObject_none_mappings (st : RefStoreState) (B : List Nat) :
    ((StoreObject .none st B).1).mappings =
      aset (aset st.mappings ((copyHash (sha1Bytes B)).take 20 ++ sha3KeySuffix)
          (copyHash (keccak256 B))) (copyHash (keccak256 B) ++ sha1KeySuffix)
        ((copyHash (sha1Bytes B)).take 20) := by
  rw [storeObject_none_eq]
  exact (unmark_fields _ _).2.2.2.2

theorem mapKeys_ne (B : List Nat) :
    (copyHash (sha1Bytes B)).take 20 ++ sha3KeySuffix ≠
      copyHash (keccak256 B) ++ sha1KeySuffix := by
  intro he
  apply_fun List.length at he
  have l1 := copyHash_length (sha1Bytes B)
  have l3 := copyHash_length (keccak256 B)
  simp [sha3KeySuffix, sha1KeySuffix, l1, l3] at he

theorem allHashes_congr (s s' : RefStoreState) (hb : s.blobs = s'.blobs)
    (hm : s.mappings = s'.mappings) : AllHashes s = AllHashes s' := by
  unfold AllHashes sha1ForSHA3
  rw [hb, hm]

/-! ## Claim theorems -/

/-- C10: for every hash `h` and every store state, `ObjectFilepath` on the SHA3
refID succeeds and returns the canonical path `<root>/blobs/<lowercase hex h>`,
with no check that a blob exists there (the statement holds for all states,
including those whose blob directory lacks the file). -/
theorem c10_objectFilepath_sha3 (st : RefStoreState) (h : List Nat) :
    ObjectFilepath st ⟨.sha3, h⟩ = .ok (st.rootPath ++ "/blobs/" ++ hexStr h) := rfl

/-- C9: `HaveObject` on a SHA1 refID with no SHA1→SHA3 index entry returns
`.ok false` (absence, not an error), and the only error class `HaveObject`
produces in the model is the unknown-hash-algorithm error. -/
theorem c9_haveObject_errors (st : RefStoreState) (h : List Nat) (r : RefID) (e : StoreErr) :
    (alookup st.mappings (h.take 20 ++ sha3KeySuffix) = none →
      HaveObject st ⟨.sha1, h⟩ = .ok false) ∧
    (HaveObject st r = .error e → ∃ n, r.hashAlg = .unknownAlg n ∧ e = .unknownHashAlg n) := by
  constructor
  · intro hn
    simp [HaveObject, sha3ForSHA1, hn]
  · intro he
    obtain ⟨alg, hh⟩ := r
    cases alg with
    | sha1 =>
      cases hm : alookup st.mappings (hh.take 20 ++ sha3KeySuffix) with
      | none => simp [HaveObject, sha3ForSHA1, hm] at he
      | some v => simp [HaveObject, sha3ForSHA1, hm] at he
    | sha3 => simp [HaveObject] at he
    | unknownAlg n =>
      simp [HaveObject] at he
      exact ⟨n, rfl, he.symm⟩

/-- C9 witness: a fresh store answers `.ok false` for an unindexed SHA1 refID,
and an unknown algorithm tag is the error case. -/
theorem c9_haveObject_errors_witness :
    HaveObject (newRefStore "root") ⟨.sha1, List.replicate 32 0⟩ = .ok false ∧
    (∃ n, (⟨HashAlg.unknownAlg 7, []⟩ : RefID).hashAlg = .unknownAlg n ∧
      StoreErr.unknownHashAlg 7 = .unknownHashAlg n) :=
  ⟨(c9_haveObject_errors (newRefStore "root") (List.replicate 32 0)
      ⟨HashAlg.unknownAlg 7, []⟩ (.unknownHashAlg 7)).1 rfl,
   (c9_haveObject_errors (newRefStore "root") (List.replicate 32 0)
      ⟨HashAlg.unknownAlg 7, []⟩ (.unknownHashAlg 7)).2 rfl⟩

/-- C4: `Object` fails with the `notFound` error — and no other error class —
in each of the two missing-data situations: a SHA1 refID whose index entry is
absent, and a resolved canonical file that is absent (for either algorithm). -/
theorem c4_object_notFound (st : RefStoreState) (h : List Nat) :
    (alookup st.mappings (h.take 20 ++ sha3KeySuffix) = none →
      Object st ⟨.sha1, h⟩ = .error .notFound) ∧
    (alookup st.blobs (hexChars h) = none →
      Object st ⟨.sha3, h⟩ = .error .notFound) ∧
    (∀ v, alookup st.mappings (h.take 20 ++ sha3KeySuffix) = some v →
      alookup st.blobs (hexChars (copyHash v)) = none →
      Object st ⟨.sha1, h⟩ = .error .notFound) := by
  refine ⟨fun hn => ?_, fun hn => ?_, fun v hv hn => ?_⟩
  · simp [Object, objectBySHA1, sha3ForSHA1, hn]
  · simp [Object, objectBySHA3, hn]
  · simp [Object, objectBySHA1, sha3ForSHA1, hv, objectBySHA3, hn]

/-- C4 witness: all three missing-data situations at concrete inputs. -/
theorem c4_object_notFound_witness :
    Object (newRefStore "root") ⟨.sha1, List.replicate 32 0⟩ = .error .notFound ∧
    Object (newRefStore "root") ⟨.sha3, List.replicate 32 0⟩ = .error .notFound ∧
    Object mappedStore ⟨.sha1, List.replicate 32 0⟩ = .error .notFound :=
  ⟨(c4_object_notFound (newRefStore "root") (List.replicate 32 0)).1 rfl,
   (c4_object_notFound (newRefStore "root") (List.replicate 32 0)).2.1 rfl,
   (c4_object_notFound mappedStore (List.replicate 32 0)).2.2
     (List.replicate 32 1) (by decide) rfl⟩

/-- C5 counterexample: on a store whose persisted missing-refs value is
undecodable, `RefsNeeded` returns the decode error — not an empty set without
error as the claim states (refstore.go:293-297 propagates the `json.Unmarshal`
failure). -/
theorem c5_counterexample :
    RefsNeeded malformedStore = .error .malformedData := rfl

/-- C5 amended: when the persisted missing-refs value cannot be decoded,
`RefsNeeded` returns the decode error (the read-only transaction never
overwrites the stored value); inside a well-formed set, every key that
unmarshals to a refID is returned, and individually malformed keys are merely
skipped. -/
theorem c5_refsNeeded_decode (st : RefStoreState) :
    (st.missingVal = some .malformed → RefsNeeded st = .error .malformedData) ∧
    (∀ ks k r l, st.missingVal = some (.object ks) → k ∈ ks →
      RefID.unmarshalText k = some r → RefsNeeded st = .ok l → r ∈ l) := by
  constructor
  · intro hm
    simp [RefsNeeded, decodeMissing, hm]
  · intro ks k r l hm hk hr hl
    rw [RefsNeeded] at hl
    rw [hm] at hl
    simp only [decodeMissing] at hl
    have : ks.dedup.filterMap RefID.unmarshalText = l := Except.ok.inj hl
    subst this
    exact List.mem_filterMap.mpr ⟨k, List.mem_dedup.mpr hk, hr⟩

/-- C5 witness: the undecodable store errors, and in a set holding one
undecodable key and one well-formed key the well-formed refID is returned. -/
theorem c5_refsNeeded_decode_witness :
    RefsNeeded malformedStore = .error .malformedData ∧
    refZ3 ∈ [refZ3] :=
  ⟨(c5_refsNeeded_decode malformedStore).1 rfl,
   (c5_refsNeeded_decode mixedKeysStore).2 [['x'], refZ3text] refZ3text refZ3 [refZ3]
     rfl (by simp) (by decide) rfl⟩

/-- C3 counterexample: a failure during the stream copy returns an error but
leaves the just-created temporary file in place — `StoreObject` never removes
it (refstore.go:191-196 only closes the file in the deferred cleanup), so the
temporary file is not removed before `StoreObject` returns. -/
theorem c3_counterexample :
    ((StoreObject (some .copyStream) (newRefStore "root") [1, 2, 3]).1).tempFiles =
      [("temp-0", [])] ∧
    (StoreObject (some .copyStream) (newRefStore "root") [1, 2, 3]).2 =
      .error .ioError := ⟨rfl, rfl⟩

/-- C3 amended: a failing `StoreObject` propagates the error and never rolls
back previously committed state (blobs, index mappings and the missing set are
untouched; after a failed index transaction the already-renamed blob stays on
disk).  The temporary file, however, is closed but not removed: it remains in
place on the copy/close/rename failure paths and disappears only because the
rename step itself moved it into the blob directory. -/
theorem c3_storeObject_failure (failStep : StoreStep) (st : RefStoreState) (B : List Nat)
    (hfresh : alookup st.tempFiles ("temp-" ++ toString st.nextTemp) = none) :
    (failStep = .createTemp →
      StoreObject (some failStep) st B = (st, .error .ioError)) ∧
    (failStep = .copyStream →
      ((StoreObject (some failStep) st B).1).blobs = st.blobs ∧
      ((StoreObject (some failStep) st B).1).mappings = st.mappings ∧
      ((StoreObject (some failStep) st B).1).missingVal = st.missingVal ∧
      alookup ((StoreObject (some failStep) st B).1).tempFiles
        ("temp-" ++ toString st.nextTemp) = some [] ∧
      (StoreObject (some failStep) st B).2 = .error .ioError) ∧
    (failStep = .closeTemp ∨ failStep = .renameTemp →
      ((StoreObject (some failStep) st B).1).blobs = st.blobs ∧
      ((StoreObject (some failStep) st B).1).mappings = st.mappings ∧
      ((StoreObject (some failStep) st B).1).missingVal = st.missingVal ∧
      alookup ((StoreObject (some failStep) st B).1).tempFiles
        ("temp-" ++ toString st.nextTemp) = some B ∧
      (StoreObject (some failStep) st B).2 = .error .ioError) ∧
    (failStep = .indexWrite →
      ((StoreObject (some failStep) st B).1).blobs =
        aset st.blobs (hexChars (copyHash (keccak256 B))) B ∧
      ((StoreObject (some failStep) st B).1).mappings = st.mappings ∧
      ((StoreObject (some failStep) st B).1).missingVal = st.missingVal ∧
      ((StoreObject (some failStep) st B).1).tempFiles = st.tempFiles ∧
      (StoreObject (some failStep) st B).2 = .error .indexError) := by
  refine ⟨fun he => ?_, fun he => ?_, fun he => ?_, fun he => ?_⟩
  · subst he
    rfl
  · subst he
    refine ⟨rfl, rfl, rfl, ?_, rfl⟩
    exact alookup_aset_self _ _ _
  · have hts : (StoreObject (some failStep) st B).1.tempFiles =
        aset st.tempFiles ("temp-" ++ toString st.nextTemp) B := by
      rcases he with he | he <;> subst he <;>
        simp [StoreObject, aset_aset]
    have hrest : (StoreObject (some failStep) st B).1.blobs = st.blobs ∧
        (StoreObject (some failStep) st B).1.mappings = st.mappings ∧
        (StoreObject (some failStep) st B).1.missingVal = st.missingVal ∧
        (StoreObject (some failStep) st B).2 = .error .ioError := by
      rcases he with he | he <;> subst he <;> exact ⟨rfl, rfl, rfl, rfl⟩
    rw [hts]
    exact ⟨hrest.1, hrest.2.1, hrest.2.2.1, alookup_aset_self _ _ _, hrest.2.2.2⟩
  · subst he
    refine ⟨rfl, rfl, rfl, ?_, rfl⟩
    show aremove (aset (aset st.tempFiles ("temp-" ++ toString st.nextTemp) [])
        ("temp-" ++ toString st.nextTemp) B) ("temp-" ++ toString st.nextTemp) = st.tempFiles
    rw [aset_aset]
    exact aremove_aset_of_none _ _ _ hfresh

/-- C3 witness: each failing step exercised on a fresh store. -/
theorem c3_storeObject_failure_witness :
    StoreObject (some .createTemp) (newRefStore "root") [5] =
      (newRefStore "root", .error .ioError) ∧
    (StoreObject (some .copyStream) (newRefStore "root") [5]).2 = .error .ioError ∧
    (StoreObject (some .closeTemp) (newRefStore "root") [5]).2 = .error .ioError ∧
    (StoreObject (some .renameTemp) (newRefStore "root") [5]).2 = .error .ioError ∧
    ((StoreObject (some .indexWrite) (newRefStore "root") [5]).1).tempFiles =
      (newRefStore "root").tempFiles :=
  ⟨(c3_storeObject_failure .createTemp (newRefStore "root") [5] rfl).1 rfl,
   ((c3_storeObject_failure .copyStream (newRefStore "root") [5] rfl).2.1 rfl).2.2.2.2,
   ((c3_storeObject_failure .closeTemp (newRefStore "root") [5] rfl).2.2.1 (Or.inl rfl)).2.2.2.2,
   ((c3_storeObject_failure .renameTemp (newRefStore "root") [5] rfl).2.2.1 (Or.inr rfl)).2.2.2.2,
   ((c3_storeObject_failure .indexWrite (newRefStore "root") [5] rfl).2.2.2 rfl).2.2.2.1⟩

theorem object_sha3 (st : RefStoreState) (h : List Nat) :
    Object st ⟨.sha3, h⟩ = objectBySHA3 st h := rfl

theorem object_sha1 (st : RefStoreState) (h : List Nat) :
    Object st ⟨.sha1, h⟩ = objectBySHA1 st h := rfl

theorem objectBySHA3_found (st : RefStoreState) (h bs : List Nat)
    (hl : alookup st.blobs (hexChars h) = some bs) :
    objectBySHA3 st h = .ok (bs, bs.length) := by
  unfold objectBySHA3
  rw [hl]

/-- C1: if `StoreObject` succeeds returning the digest pair `(h1, h3)`, then
`Object` on the SHA3 refID yields exactly the stored bytes with the original
length, and `Object` on the SHA1 refID yields the same. -/
theorem c1_roundTrip (st : RefStoreState) (B : List Nat) (st' : RefStoreState)
    (h1 h3 : List Nat)
    (hs : StoreObject .none st B = (st', .ok (h1, h3))) :
    Object st' ⟨.sha3, h3⟩ = .ok (B, B.length) ∧
    Object st' ⟨.sha1, h1⟩ = .ok (B, B.length) := by
  have hst : st' = (StoreObject .none st B).1 := by rw [hs]
  have hpair : (StoreObject .none st B).2 = .ok (h1, h3) := by rw [hs]
  rw [storeObject_none_snd] at hpair
  have hph := Except.ok.inj hpair
  have hh1 : copyHash (sha1Bytes B) = h1 := congrArg Prod.fst hph
  have hh3 : copyHash (keccak256 B) = h3 := congrArg Prod.snd hph
  subst hst
  subst hh1
  subst hh3
  constructor
  · rw [object_sha3]
    apply objectBySHA3_found
    rw [storeObject_none_blobs]
    exact alookup_aset_self _ _ _
  · rw [object_sha1]
    unfold objectBySHA1
    have hmap : sha3ForSHA1 ((StoreObject .none st B).1) (copyHash (sha1Bytes B)) =
        .ok (copyHash (keccak256 B)) := by
      unfold sha3ForSHA1
      rw [storeObject_none_mappings, alookup_aset_ne _ _ _ _ (mapKeys_ne B),
        alookup_aset_self]
      show Except.ok (copyHash (copyHash (keccak256 B))) = .ok (copyHash (keccak256 B))
      rw [copyHash_of_length _ (copyHash_length _)]
    rw [hmap]
    apply objectBySHA3_found
    rw [storeObject_none_blobs]
    exact alookup_aset_self _ _ _

/-- C1 witness: the 5 bytes of "hello" stored into a fresh store round-trip
through both refIDs with reported length 5. -/
theorem c1_roundTrip_witness :
    Object ((StoreObject .none (newRefStore "root") helloBytes).1) ⟨.sha3, helloSha3⟩ =
      .ok (helloBytes, 5) ∧
    Object ((StoreObject .none (newRefStore "root") helloBytes).1) ⟨.sha1, helloSha1⟩ =
      .ok (helloBytes, 5) :=
  c1_roundTrip (newRefStore "root") helloBytes _ helloSha1 helloSha3 rfl

/-- C2: a successful `StoreObject` returns exactly the SHA1 digest and the
legacy Keccak-256 digest of the stored bytes (each inside its 32-byte cell),
and on the concrete input "hello" these digests are the expected
`aaf4c61d...` and `1c8aff95...` values. -/
theorem c2_digests (st : RefStoreState) (B : List Nat) (st' : RefStoreState)
    (h1 h3 : List Nat)
    (hs : StoreObject .none st B = (st', .ok (h1, h3))) :
    (h1 = copyHash (sha1Bytes B) ∧ h3 = copyHash (keccak256 B)) ∧
    hexStr (sha1Bytes helloBytes) = "aaf4c61ddcc5e8a2dabede0f3b482cd9aea9434d" ∧
    hexStr (keccak256 helloBytes) =
      "1c8aff950685c2ed4bc3174f3472287b56d9517b9c948127319a09a7a36deac8" := by
  refine ⟨?_, by decide, by decide⟩
  have hpair : (StoreObject .none st B).2 = .ok (h1, h3) := by rw [hs]
  rw [storeObject_none_snd] at hpair
  have hph := Except.ok.inj hpair
  exact ⟨(congrArg Prod.fst hph).symm, (congrArg Prod.snd hph).symm⟩

/-- C2 witness: the hello fixtures satisfy both digest equations. -/
theorem c2_digests_witness :
    (helloSha1 = copyHash (sha1Bytes helloBytes) ∧
      helloSha3 = copyHash (keccak256 helloBytes)) ∧
    hexStr (sha1Bytes helloBytes) = "aaf4c61ddcc5e8a2dabede0f3b482cd9aea9434d" ∧
    hexStr (keccak256 helloBytes) =
      "1c8aff950685c2ed4bc3174f3472287b56d9517b9c948127319a09a7a36deac8" :=
  c2_digests (newRefStore "root") helloBytes
    ((StoreObject .none (newRefStore "root") helloBytes).1) helloSha1 helloSha3 rfl

theorem mark_missingVal (st : RefStoreState) (refs : List RefID) :
    MarkRefsAsNeeded st refs =
      match decodeMissing st.missingVal with
      | .error _ => st
      | .ok ks => { st with missingVal := some (.object (ks ++
          (refs.filter fun r =>
            match HaveObject st r with
            | .ok b => !b
            | .error _ => false).filterMap RefID.marshalText)) } := rfl

theorem unmark_excludes (st : RefStoreState) (refs : List RefID)
    (hwf : st.missingVal ≠ some .malformed) :
    ∃ l, RefsNeeded (unmarkRefsAsNeeded st refs) = .ok l ∧
      ∀ r m, RefID.marshalText r = some m → r ∈ refs → r ∉ l := by
  cases hdm : decodeMissing st.missingVal with
  | error e =>
    exfalso
    cases hmv : st.missingVal with
    | none => rw [hmv] at hdm; simp [decodeMissing] at hdm
    | some mv =>
      cases mv with
      | malformed => exact hwf hmv
      | object ks => rw [hmv] at hdm; simp [decodeMissing] at hdm
  | ok ks =>
    have hu : unmarkRefsAsNeeded st refs = { st with missingVal := some (.object (ks.filter fun k => decide (k ∉ refs.filterMap RefID.marshalText))) } := by
      unfold unmarkRefsAsNeeded
      rw [hdm]
    rw [hu]
    refine ⟨_, rfl, ?_⟩
    intro r m hm hmem hr
    obtain ⟨k, hk, hku⟩ := List.mem_filterMap.mp hr
    have hkm := unmarshal_marshal k r hku
    rw [hm] at hkm
    obtain rfl := Option.some.inj hkm
    have hk' := List.mem_dedup.mp hk
    have hnd := (List.mem_filter.mp hk').2
    rw [decide_eq_true_eq] at hnd
    exact hnd (List.mem_filterMap.mpr ⟨r, hmem, hm⟩)

/-- C6: marking a locally present refID leaves the persistent missing set
unchanged as a key set; marking a locally absent canonical refID puts it into
the set returned by `RefsNeeded` afterwards (for a decodable stored missing
set — an undecodable one aborts the logged update transaction). -/
theorem c6_markRefsAsNeeded (st : RefStoreState) (R : RefID) :
    (HaveObject st R = .ok true →
      ∀ k, k ∈ missingKeys (MarkRefsAsNeeded st [R]) ↔ k ∈ missingKeys st) ∧
    (canonicalRefID R → st.missingVal ≠ some .malformed → HaveObject st R = .ok false →
      ∃ l, RefsNeeded (MarkRefsAsNeeded st [R]) = .ok l ∧ R ∈ l) := by
  constructor
  · intro hT k
    rw [mark_missingVal]
    have hfilter : List.filter (fun r =>
        match HaveObject st r with
        | .ok b => !b
        | .error _ => false) [R] = [] := by
      simp [List.filter, hT]
    rw [hfilter]
    cases hmv : st.missingVal with
    | none => simp [decodeMissing, missingKeys, hmv]
    | some mv =>
      cases mv with
      | malformed => simp [decodeMissing, missingKeys, hmv]
      | object ks => simp [decodeMissing, missingKeys, List.mem_dedup, hmv]
  · intro hc hwf hF
    rw [mark_missingVal]
    have hfilter : List.filter (fun r =>
        match HaveObject st r with
        | .ok b => !b
        | .error _ => false) [R] = [R] := by
      simp [List.filter, hF]
    rw [hfilter]
    obtain ⟨m, hm⟩ : ∃ m, R.marshalText = some m := by
      obtain ⟨alg, hh⟩ := R
      cases alg with
      | sha1 => exact ⟨_, rfl⟩
      | sha3 => exact ⟨_, rfl⟩
      | unknownAlg n => exact absurd hc id
    have hfm : [R].filterMap RefID.marshalText = [m] := by
      simp [List.filterMap_cons, hm]
    rw [hfm]
    cases hmv : st.missingVal with
    | none =>
      refine ⟨(([] : List (List Char)) ++ [m]).dedup.filterMap RefID.unmarshalText,
        rfl, ?_⟩
      exact List.mem_filterMap.mpr ⟨m, by simp, marshal_unmarshal R hc m hm⟩
    | some mv =>
      cases mv with
      | malformed => exact absurd hmv hwf
      | object ks =>
        refine ⟨(ks.dedup ++ [m]).dedup.filterMap RefID.unmarshalText, rfl, ?_⟩
        refine List.mem_filterMap.mpr ⟨m, ?_, marshal_unmarshal R hc m hm⟩
        simp [List.mem_dedup]

/-- C6 witness: a present refID leaves the key set unchanged; an absent one
appears in the subsequent `RefsNeeded` result. -/
theorem c6_markRefsAsNeeded_witness :
    (['x'] ∈ missingKeys (MarkRefsAsNeeded zeroBlobStore [refZ3]) ↔
      ['x'] ∈ missingKeys zeroBlobStore) ∧
    refZ3 ∈ [refZ3] := by
  constructor
  · exact (c6_markRefsAsNeeded zeroBlobStore refZ3).1 rfl ['x']
  · obtain ⟨l, hl, hr⟩ := (c6_markRefsAsNeeded (newRefStore "root") refZ3).2
      ⟨by decide, by decide⟩ (by decide) rfl
    have h0 : RefsNeeded (MarkRefsAsNeeded (newRefStore "root") [refZ3]) =
        .ok [refZ3] := rfl
    rw [hl] at h0
    obtain rfl := Except.ok.inj h0
    exact hr

/-- C7: after a successful `StoreObject` on a store whose persisted missing
set is decodable, neither the returned SHA1 refID nor the returned SHA3 refID
appears in the set returned by `RefsNeeded`. -/
theorem c7_unmarkAfterStore (st : RefStoreState) (B : List Nat) (st' : RefStoreState)
    (h1 h3 : List Nat) (hwf : st.missingVal ≠ some .malformed)
    (hs : StoreObject .none st B = (st', .ok (h1, h3))) :
    ∃ l, RefsNeeded st' = .ok l ∧
      (⟨.sha1, h1⟩ : RefID) ∉ l ∧ (⟨.sha3, h3⟩ : RefID) ∉ l := by
  have hst : st' = (StoreObject .none st B).1 := by rw [hs]
  have hpair : (StoreObject .none st B).2 = .ok (h1, h3) := by rw [hs]
  rw [storeObject_none_snd] at hpair
  have hph := Except.ok.inj hpair
  have hh1 : copyHash (sha1Bytes B) = h1 := congrArg Prod.fst hph
  have hh3 : copyHash (keccak256 B) = h3 := congrArg Prod.snd hph
  subst hst
  subst hh1
  subst hh3
  have key : ∃ l, RefsNeeded ((StoreObject .none st B).1) = .ok l ∧
      ∀ r m, RefID.marshalText r = some m →
        r ∈ [(⟨.sha1, copyHash (sha1Bytes B)⟩ : RefID),
             ⟨.sha3, copyHash (keccak256 B)⟩] → r ∉ l :=
    unmark_excludes _ _ hwf
  obtain ⟨l, hl, hni⟩ := key
  exact ⟨l, hl, hni _ _ rfl (by simp), hni _ _ rfl (by simp)⟩

/-- C7 witness: storing "hello" into a store whose missing set held the hello
SHA3 key leaves a `RefsNeeded` result free of both hello refIDs. -/
theorem c7_unmarkAfterStore_witness :
    (⟨.sha1, helloSha1⟩ : RefID) ∉ ([] : List RefID) ∧
    (⟨.sha3, helloSha3⟩ : RefID) ∉ ([] : List RefID) := by
  obtain ⟨l, hl, hn1, hn3⟩ := c7_unmarkAfterStore helloMissingStore helloBytes
    ((StoreObject .none helloMissingStore helloBytes).1) helloSha1 helloSha3
    (by decide) rfl
  have h0 : RefsNeeded ((StoreObject .none helloMissingStore helloBytes).1) =
      .ok ([] : List RefID) := rfl
  rw [hl] at h0
  obtain rfl := Except.ok.inj h0
  exact ⟨hn1, hn3⟩

/-- C8: storing the same bytes a second time succeeds with the same digest
pair, the blob directory and the index mappings do not change (the rename over
the existing canonical file replaces identical content), `HaveObject` answers
true for both refIDs, and `AllHashes` is unchanged (no duplicate entries). -/
theorem c8_idempotence (st : RefStoreState) (B : List Nat) :
    (StoreObject .none st B).2 =
      .ok (copyHash (sha1Bytes B), copyHash (keccak256 B)) ∧
    (StoreObject .none ((StoreObject .none st B).1) B).2 =
      .ok (copyHash (sha1Bytes B), copyHash (keccak256 B)) ∧
    ((StoreObject .none ((StoreObject .none st B).1) B).1).blobs =
      ((StoreObject .none st B).1).blobs ∧
    ((StoreObject .none ((StoreObject .none st B).1) B).1).mappings =
      ((StoreObject .none st B).1).mappings ∧
    HaveObject ((StoreObject .none ((StoreObject .none st B).1) B).1)
      ⟨.sha3, copyHash (keccak256 B)⟩ = .ok true ∧
    HaveObject ((StoreObject .none ((StoreObject .none st B).1) B).1)
      ⟨.sha1, copyHash (sha1Bytes B)⟩ = .ok true ∧
    AllHashes ((StoreObject .none ((StoreObject .none st B).1) B).1) =
      AllHashes ((StoreObject .none st B).1) := by
  have hb1 := storeObject_none_blobs st B
  have hm1 := storeObject_none_mappings st B
  have hb2 := storeObject_none_blobs ((StoreObject .none st B).1) B
  have hm2 := storeObject_none_mappings ((StoreObject .none st B).1) B
  have hkb : alookup ((StoreObject .none st B).1).blobs
      (hexChars (copyHash (keccak256 B))) = some B := by
    rw [hb1]
    exact alookup_aset_self _ _ _
  have hblobs : ((StoreObject .none ((StoreObject .none st B).1) B).1).blobs =
      ((StoreObject .none st B).1).blobs := by
    rw [hb2]
    exact aset_eq_of_alookup _ _ _ hkb
  have hk1 : alookup ((StoreObject .none st B).1).mappings
      ((copyHash (sha1Bytes B)).take 20 ++ sha3KeySuffix) =
      some (copyHash (keccak256 B)) := by
    rw [hm1, alookup_aset_ne _ _ _ _ (mapKeys_ne B)]
    exact alookup_aset_self _ _ _
  have hk2 : alookup ((StoreObject .none st B).1).mappings
      (copyHash (keccak256 B) ++ sha1KeySuffix) =
      some ((copyHash (sha1Bytes B)).take 20) := by
    rw [hm1]
    exact alookup_aset_self _ _ _
  have hmaps : ((StoreObject .none ((StoreObject .none st B).1) B).1).mappings =
      ((StoreObject .none st B).1).mappings := by
    rw [hm2, aset_eq_of_alookup _ _ _ hk1, aset_eq_of_alookup _ _ _ hk2]
  have hlook2 : alookup ((StoreObject .none ((StoreObject .none st B).1) B).1).blobs
      (hexChars (copyHash (keccak256 B))) = some B := by
    rw [hblobs]
    exact hkb
  have hh3 : HaveObject ((StoreObject .none ((StoreObject .none st B).1) B).1)
      ⟨.sha3, copyHash (keccak256 B)⟩ = .ok true := by
    simp [HaveObject, hlook2]
  have hsfs : sha3ForSHA1 ((StoreObject .none ((StoreObject .none st B).1) B).1)
      (copyHash (sha1Bytes B)) = .ok (copyHash (keccak256 B)) := by
    unfold sha3ForSHA1
    rw [hmaps, hk1]
    show Except.ok (copyHash (copyHash (keccak256 B))) = _
    rw [copyHash_of_length _ (copyHash_length _)]
  have hh1 : HaveObject ((StoreObject .none ((StoreObject .none st B).1) B).1)
      ⟨.sha1, copyHash (sha1Bytes B)⟩ = .ok true := by
    simp [HaveObject, hsfs, hlook2]
  exact ⟨storeObject_none_snd st B, storeObject_none_snd _ B, hblobs, hmaps, hh3, hh1,
    allHashes_congr _ _ hblobs hmaps⟩
